import Mathlib

/-!
Shallow embedding of the life-coach-app backend (FastAPI + SQLAlchemy).

The relational store is modelled as lists of rows (`DB`), one list per table,
in insertion order; the filesystem under the upload directory is a list of
paths.  Each HTTP handler from `api/todos.py` and `api/water.py` becomes a
Lean function on `DB`; a handler that raises `HTTPException` returns
`Except ApiError`, and since every handler runs in a single transaction, an
error result leaves the store unchanged (no `DB` is produced on the error
branch).  Timestamps are modelled as integers on an abstract time axis;
nondeterministic inputs of the real system (current time, generated uuid
filename) are explicit parameters.

Python truthiness tests on `parent_id` (`if todo.parent_id:`) and on `url`
(`not attachment.url`) are translated exactly: `0` and the empty string are
falsy.
-/

namespace LifeCoach

/-- Task status enumeration from `database/models.py` (`TaskStatus`). -/
inductive TaskStatus where
  | TODO
  | IN_PROGRESS
  | DONE
deriving DecidableEq, Repr

/-- Attachment type enumeration from `database/models.py` (`AttachmentType`). -/
inductive AttachmentType where
  | IMAGE
  | PDF
  | LINK
deriving DecidableEq, Repr

/-- A row of the `todos` table (`database/models.py`, class `Todo`). -/
structure Todo where
  id : Nat
  title : String
  description : Option String := none
  status : TaskStatus := .TODO
  due_date : Option Int := none
  duration_minutes : Option Int := none
  completed_seconds : Int := 0
  hidden : Bool := false
  parent_id : Option Nat := none
deriving DecidableEq, Repr

/-- A row of the `comments` table (`database/models.py`, class `Comment`). -/
structure Comment where
  id : Nat
  text : String
  created_at : Int
  task_id : Nat
deriving DecidableEq, Repr

/-- A row of the `attachments` table (`database/models.py`, class `Attachment`). -/
structure Attachment where
  id : Nat
  file_path : Option String := none
  url : Option String := none
  attachment_type : AttachmentType
  created_at : Int
  task_id : Nat
deriving DecidableEq, Repr

/-- A row of the `water_logs` table (`database/models.py`, class `WaterLog`). -/
structure WaterLog where
  id : Nat
  amount_ml : Int
  timestamp : Int
deriving DecidableEq, Repr

/-- The whole mutable state: the four tables plus the upload directory of the
filesystem (list of stored file paths). -/
structure DB where
  todos : List Todo := []
  comments : List Comment := []
  attachments : List Attachment := []
  water_logs : List WaterLog := []
  files : List String := []
deriving DecidableEq, Repr

/-- Errors raised by handlers via `HTTPException`: 404 and 400 with a detail
string. -/
inductive ApiError where
  | notFound (detail : String)
  | badRequest (detail : String)
deriving DecidableEq, Repr

/-- The upload directory constant from `api/todos.py` (`UPLOAD_DIR`). -/
def UPLOAD_DIR : String := "static/uploads"

/-- Python truthiness of an optional integer: `None` and `0` are falsy.
Used to translate `if todo.parent_id:`. -/
def truthyNat (o : Option Nat) : Bool :=
  match o with
  | none => false
  | some n => n != 0

/-- Python truthiness of an optional string: `None` and `""` are falsy.
Used to translate `not attachment.url`. -/
def truthyStr (o : Option String) : Bool :=
  match o with
  | none => false
  | some s => s != ""

/-- Helper `get_task_or_404` from `api/todos.py`: first row with the given id,
else 404. -/
def get_task_or_404 (db : DB) (todo_id : Nat) : Except ApiError Todo :=
  match db.todos.find? (fun t => t.id == todo_id) with
  | some task => .ok task
  | none => .error (.notFound "Task not found")

/-- Helper `get_comment_or_404` from `api/todos.py`. -/
def get_comment_or_404 (db : DB) (comment_id : Nat) : Except ApiError Comment :=
  match db.comments.find? (fun c => c.id == comment_id) with
  | some comment => .ok comment
  | none => .error (.notFound "Comment not found")

/-- Helper `get_attachment_or_404` from `api/todos.py`. -/
def get_attachment_or_404 (db : DB) (attachment_id : Nat) : Except ApiError Attachment :=
  match db.attachments.find? (fun a => a.id == attachment_id) with
  | some attachment => .ok attachment
  | none => .error (.notFound "Attachment not found")

/-- Autoincrement primary key for `todos`: one more than the largest id. -/
def next_todo_id (db : DB) : Nat :=
  db.todos.foldl (fun m t => max m t.id) 0 + 1

/-- Autoincrement primary key for `comments`. -/
def next_comment_id (db : DB) : Nat :=
  db.comments.foldl (fun m c => max m c.id) 0 + 1

/-- Autoincrement primary key for `attachments`. -/
def next_attachment_id (db : DB) : Nat :=
  db.attachments.foldl (fun m a => max m a.id) 0 + 1

/-- Autoincrement primary key for `water_logs`. -/
def next_water_id (db : DB) : Nat :=
  db.water_logs.foldl (fun m w => max m w.id) 0 + 1

/-- Request body `TodoCreate` from `schemas/todo.py`: `TodoBase` fields with
their pydantic defaults, plus the optional `parent_id`. -/
structure TodoCreate where
  title : String
  description : Option String := none
  status : Option TaskStatus := some .TODO
  due_date : Option Int := none
  duration_minutes : Option Int := none
  hidden : Option Bool := some false
  parent_id : Option Nat := none
deriving DecidableEq, Repr

/-- Request body `TodoUpdate` from `schemas/todo.py`.  The outer `Option`
records whether the field was present in the request at all (pydantic
`exclude_unset=True`); the inner type is the field's value.  For the columns
that are nullable in the model (`description`, `due_date`,
`duration_minutes`) a present field may itself carry `none`. -/
structure TodoUpdate where
  title : Option String := none
  description : Option (Option String) := none
  status : Option TaskStatus := none
  due_date : Option (Option Int) := none
  duration_minutes : Option (Option Int) := none
  hidden : Option Bool := none
  completed_seconds : Option Int := none
deriving DecidableEq, Repr

/-- Handler `create_todo` (`POST /todos/`): when `parent_id` is truthy,
resolve the parent or 404; then insert the new row.  Note the Python
truthiness test skips the existence check when `parent_id == 0`. -/
def create_todo (db : DB) (todo : TodoCreate) : Except ApiError (DB × Todo) := do
  if truthyNat todo.parent_id then
    let _ ← get_task_or_404 db (todo.parent_id.getD 0)
  let db_todo : Todo :=
    { id := next_todo_id db
      title := todo.title
      description := todo.description
      status := todo.status.getD .TODO
      due_date := todo.due_date
      duration_minutes := todo.duration_minutes
      completed_seconds := 0
      hidden := todo.hidden.getD false
      parent_id := todo.parent_id }
  .ok ({ db with todos := db.todos ++ [db_todo] }, db_todo)

/-- Handler `read_todos` (`GET /todos/`): order by ascending id, optionally
keep only rows with `parent_id` unset, then offset/limit. -/
def read_todos (db : DB) (skip : Nat) (limit : Nat) (top_level_only : Bool) : List Todo :=
  let q := List.insertionSort (fun a b : Todo => a.id ≤ b.id) db.todos
  let q := if top_level_only then q.filter (fun t => t.parent_id == none) else q
  (q.drop skip).take limit

/-- Rows of `todos` whose `parent_id` points at the given task: the
`subtasks` relationship of `database/models.py`. -/
def childrenOf (ts : List Todo) (pid : Nat) : List Todo :=
  ts.filter (fun t => t.parent_id == some pid)

/-- Rows of `comments` owned by the given task: the `comments`
relationship. -/
def commentsOf (db : DB) (tid : Nat) : List Comment :=
  db.comments.filter (fun c => c.task_id == tid)

/-- Rows of `attachments` owned by the given task: the `attachments`
relationship. -/
def attachmentsOf (db : DB) (tid : Nat) : List Attachment :=
  db.attachments.filter (fun a => a.task_id == tid)

/-- The wire representation of a task: the response schema `Todo` of
`schemas/todo.py`, a recursive pydantic model (`subtasks : List['Todo']`). -/
inductive TodoOut : Type where
  | mk (id : Nat) (title : String) (description : Option String)
       (status : TaskStatus) (due_date : Option Int)
       (duration_minutes : Option Int) (completed_seconds : Int)
       (hidden : Bool) (subtasks : List TodoOut)
       (comments : List Comment) (attachments : List Attachment) : TodoOut

/-- Identifier field of a serialized task. -/
def TodoOut.id : TodoOut → Nat
  | .mk i _ _ _ _ _ _ _ _ _ _ => i

/-- Serialized `subtasks` field. -/
def TodoOut.subtasks : TodoOut → List TodoOut
  | .mk _ _ _ _ _ _ _ _ s _ _ => s

/-- Serialized `title` field. -/
def TodoOut.title : TodoOut → String
  | .mk _ ti _ _ _ _ _ _ _ _ _ => ti

/-- Serialized `comments` field. -/
def TodoOut.comments : TodoOut → List Comment
  | .mk _ _ _ _ _ _ _ _ _ c _ => c

/-- Serialized `attachments` field. -/
def TodoOut.attachments : TodoOut → List Attachment
  | .mk _ _ _ _ _ _ _ _ _ _ a => a

/-- Fuel-indexed serialization of a task row into the recursive response
schema.  Pydantic validation of the recursive `Todo` schema with
`from_attributes` walks the ORM `subtasks` relationship at every level, so
the recursion descends into children of children; the fuel only bounds the
depth, and `serializeTodo` below supplies enough fuel for any store whose
parent links point at rows with smaller ids (the only stores the API can
build). -/
def serializeTodoFuel : Nat → DB → Todo → TodoOut
  | 0, db, t =>
      .mk t.id t.title t.description t.status t.due_date t.duration_minutes
        t.completed_seconds t.hidden [] (commentsOf db t.id) (attachmentsOf db t.id)
  | n + 1, db, t =>
      .mk t.id t.title t.description t.status t.due_date t.duration_minutes
        t.completed_seconds t.hidden
        ((childrenOf db.todos t.id).map (serializeTodoFuel n db))
        (commentsOf db t.id) (attachmentsOf db t.id)

/-- Serialization with fuel equal to the table size, which exceeds the depth
of any subtree in a store whose child ids are larger than parent ids. -/
def serializeTodo (db : DB) (t : Todo) : TodoOut :=
  serializeTodoFuel db.todos.length db t

/-- Handler `read_todo` (`GET /todos/{id}`): resolve or 404, then serialize
through the recursive response schema. -/
def read_todo (db : DB) (todo_id : Nat) : Except ApiError TodoOut := do
  let task ← get_task_or_404 db todo_id
  .ok (serializeTodo db task)

/-- Application of a `TodoUpdate` to a row: `setattr` for exactly the fields
present in `model_dump(exclude_unset=True)`. -/
def applyUpdate (t : Todo) (u : TodoUpdate) : Todo :=
  { t with
    title := u.title.getD t.title
    description := u.description.getD t.description
    status := u.status.getD t.status
    due_date := u.due_date.getD t.due_date
    duration_minutes := u.duration_minutes.getD t.duration_minutes
    hidden := u.hidden.getD t.hidden
    completed_seconds := u.completed_seconds.getD t.completed_seconds }

/-- Handler `update_todo` (`PUT /todos/{id}`): resolve or 404, then `setattr`
each present field on that row and commit. -/
def update_todo (db : DB) (todo_id : Nat) (u : TodoUpdate) :
    Except ApiError (DB × Todo) := do
  let db_todo ← get_task_or_404 db todo_id
  let updated := applyUpdate db_todo u
  .ok ({ db with
          todos := db.todos.map (fun x => if x.id = todo_id then applyUpdate x u else x) },
        updated)

/-- One step of the subtree collection: a row joins the collected set when
its parent link points into it. -/
def collectStep (acc : List Nat) (t : Todo) : List Nat :=
  match t.parent_id with
  | some p => if p ∈ acc then acc ++ [t.id] else acc
  | none => acc

/-- One left-to-right pass over the task table collecting the ids of the
subtree rooted at the ids already in `acc`: a row is collected when its
parent has been collected before it.  On a table sorted by id whose parent
links point backwards this computes the full descendant closure.  This is
the arena form of the ORM cascade `all, delete-orphan` on the `subtasks`
relationship. -/
def collectDesc (ts : List Todo) (acc : List Nat) : List Nat :=
  ts.foldl collectStep acc

/-- Ids of the subtree rooted at `root` (the root itself included). -/
def subtreeIds (ts : List Todo) (root : Nat) : List Nat :=
  collectDesc ts [root]

/-- Handler `delete_todo` (`DELETE /todos/{id}`): resolve or 404, then
`db.delete` with the declarative cascades of `database/models.py`: the
subtree of tasks and the comments and attachments owned by any of them are
deleted; files on disk are NOT touched by this path. -/
def delete_todo (db : DB) (todo_id : Nat) : Except ApiError DB := do
  let _ ← get_task_or_404 db todo_id
  let ids := subtreeIds db.todos todo_id
  .ok { db with
        todos := db.todos.filter (fun t => t.id ∉ ids)
        comments := db.comments.filter (fun c => c.task_id ∉ ids)
        attachments := db.attachments.filter (fun a => a.task_id ∉ ids) }

/-- Request body `CommentCreate` from `schemas/todo.py`. -/
structure CommentCreate where
  text : String
deriving DecidableEq, Repr

/-- Handler `create_comment_for_task` (`POST /todos/{id}/comments/`). -/
def create_comment_for_task (db : DB) (todo_id : Nat) (comment : CommentCreate)
    (now : Int) : Except ApiError (DB × Comment) := do
  let task ← get_task_or_404 db todo_id
  let db_comment : Comment :=
    { id := next_comment_id db, text := comment.text, created_at := now
      task_id := task.id }
  .ok ({ db with comments := db.comments ++ [db_comment] }, db_comment)

/-- Handler `delete_comment` (`DELETE /todos/{id}/comments/{cid}`): looks the
comment up by its own id only. -/
def delete_comment (db : DB) (comment_id : Nat) : Except ApiError DB := do
  let db_comment ← get_comment_or_404 db comment_id
  .ok { db with comments := db.comments.filter (fun x => x.id ≠ db_comment.id) }

/-- The parts of a `multipart/form-data` upload the handler reads: the
original filename's extension and the declared content type. -/
structure UploadFile where
  extension : String
  content_type : String
deriving DecidableEq, Repr

/-- Handler `upload_attachment_for_task` (`POST /todos/{id}/attachments/upload`):
resolve or 404; build a fresh path `UPLOAD_DIR/uuid4 + extension` (the
generated uuid is the explicit `uuid` parameter); write the file; classify
image vs pdf by the content type; insert the row with `file_path` set and
`url` left null. -/
def upload_attachment_for_task (db : DB) (todo_id : Nat) (file : UploadFile)
    (uuid : String) (now : Int) : Except ApiError (DB × Attachment) := do
  let task ← get_task_or_404 db todo_id
  let unique_filename := uuid ++ file.extension
  let file_path := UPLOAD_DIR ++ "/" ++ unique_filename
  let attachment_type :=
    if file.content_type.startsWith "image" then AttachmentType.IMAGE
    else AttachmentType.PDF
  let db_attachment : Attachment :=
    { id := next_attachment_id db, file_path := some file_path, url := none
      attachment_type := attachment_type, created_at := now, task_id := task.id }
  .ok ({ db with
          files := db.files ++ [file_path]
          attachments := db.attachments ++ [db_attachment] },
        db_attachment)

/-- Translation of `os.path.exists` on the modelled upload directory; Python's
`os.path.exists` is always false on the empty path. -/
def pathExists (files : List String) (p : String) : Bool :=
  p != "" && p ∈ files

/-- Handler `delete_attachment` (`DELETE /todos/{id}/attachments/{aid}`):
resolve or 404; when the row has a truthy `file_path` that exists on disk,
remove the file; then delete the row in every case. -/
def delete_attachment (db : DB) (attachment_id : Nat) : Except ApiError DB := do
  let db_attachment ← get_attachment_or_404 db attachment_id
  let files' :=
    match db_attachment.file_path with
    | some p => if pathExists db.files p then db.files.filter (fun q => q ≠ p) else db.files
    | none => db.files
  .ok { db with
        files := files'
        attachments := db.attachments.filter (fun x => x.id ≠ db_attachment.id) }

/-- Request body `AttachmentCreate` from `schemas/todo.py`. -/
structure AttachmentCreate where
  attachment_type : AttachmentType
  file_path : Option String := none
  url : Option String := none
deriving DecidableEq, Repr

/-- Handler `create_link_attachment_for_task` (`POST /todos/{id}/attachments/link`):
the body is validated first (a 400 when the type is not `link` or the `url`
is falsy), the task is resolved only afterwards; on success insert the row
with `url` set and `file_path` left null. -/
def create_link_attachment_for_task (db : DB) (todo_id : Nat)
    (attachment : AttachmentCreate) (now : Int) : Except ApiError (DB × Attachment) := do
  if attachment.attachment_type ≠ AttachmentType.LINK || !(truthyStr attachment.url) then
    throw (.badRequest "Invalid request for link attachment.")
  let task ← get_task_or_404 db todo_id
  let db_attachment : Attachment :=
    { id := next_attachment_id db, file_path := none, url := attachment.url
      attachment_type := AttachmentType.LINK, created_at := now, task_id := task.id }
  .ok ({ db with attachments := db.attachments ++ [db_attachment] }, db_attachment)

/-- Request body `WaterCreate` from `schemas/water.py`: a bare integer field
with no range constraint. -/
structure WaterCreate where
  amount_ml : Int
deriving DecidableEq, Repr

/-- Handler `add_water` (`POST /water/`): inserts a row stamped `now` (the
current instant in the fixed `Asia/Baku` zone); never fails. -/
def add_water (db : DB) (data : WaterCreate) (now : Int) : DB × WaterLog :=
  let water_log : WaterLog :=
    { id := next_water_id db, amount_ml := data.amount_ml, timestamp := now }
  ({ db with water_logs := db.water_logs ++ [water_log] }, water_log)

/-- One day of the time axis, in seconds: `timedelta(days=1)`. -/
def oneDay : Int := 86400

/-- Handler `today_stats` (`GET /water/`): midnight of the current `Asia/Baku`
calendar day is the explicit `start_of_day` parameter; keeps the rows with
`start_of_day <= timestamp < start_of_day + 1 day` and sums their amounts. -/
def today_stats (db : DB) (start_of_day : Int) : Int × List WaterLog :=
  let end_of_day := start_of_day + oneDay
  let logs := db.water_logs.filter
    (fun l => start_of_day ≤ l.timestamp && l.timestamp < end_of_day)
  ((logs.map (fun l => l.amount_ml)).sum, logs)

/-- Handler `history` (`GET /history`): all rows ordered by timestamp
descending. -/
def history (db : DB) : List WaterLog :=
  List.insertionSort (fun a b : WaterLog => b.timestamp ≤ a.timestamp) db.water_logs

/-- Handler `remove_water` (`DELETE /water/{id}`). -/
def remove_water (db : DB) (water_log_id : Nat) : Except ApiError DB :=
  match db.water_logs.find? (fun w => w.id == water_log_id) with
  | none => .error (.notFound "Water log not found")
  | some water_log =>
      .ok { db with water_logs := db.water_logs.filter (fun w => w.id ≠ water_log.id) }

/-- Whether a row's parent link, if any, points at a strictly smaller id. -/
def parentEarlier (t : Todo) : Bool :=
  match t.parent_id with
  | some p => p < t.id
  | none => true

/-- Well-formedness of the task table as the API builds it: rows appear in
order of strictly increasing id (autoincrement keys in insertion order), and
every parent link points backwards — the parent row existed when the child
was created, and `TodoUpdate` carries no `parent_id` field, so links are
never rewritten. -/
def WF (ts : List Todo) : Prop :=
  List.Pairwise (fun a b : Todo => a.id < b.id) ts ∧ ∀ t ∈ ts, parentEarlier t = true

/-- One row of `ts` has id `c` and its parent link set to `p`. -/
def ChildOf (ts : List Todo) (p c : Nat) : Prop :=
  ∃ t ∈ ts, t.id = c ∧ t.parent_id = some p

/-- Descendant-or-self over the parent links of `ts`, to any depth. -/
def Desc (ts : List Todo) (root d : Nat) : Prop :=
  Relation.ReflTransGen (ChildOf ts) root d

/-- A request arriving at the public interface, with the nondeterministic
inputs (clock, generated uuid) made explicit. -/
inductive Op where
  | createTodo (todo : TodoCreate)
  | updateTodo (todo_id : Nat) (u : TodoUpdate)
  | deleteTodo (todo_id : Nat)
  | createComment (todo_id : Nat) (comment : CommentCreate) (now : Int)
  | deleteComment (comment_id : Nat)
  | uploadAttachment (todo_id : Nat) (file : UploadFile) (uuid : String) (now : Int)
  | deleteAttachment (attachment_id : Nat)
  | createLink (todo_id : Nat) (attachment : AttachmentCreate) (now : Int)
  | addWater (data : WaterCreate) (now : Int)
  | removeWater (water_log_id : Nat)
deriving Repr

/-- Effect of one request on the store: a handler that raises rolls back its
transaction, leaving the store as it was. -/
def applyOp (db : DB) (op : Op) : DB :=
  match op with
  | .createTodo todo =>
      match create_todo db todo with | .ok (db', _) => db' | .error _ => db
  | .updateTodo todo_id u =>
      match update_todo db todo_id u with | .ok (db', _) => db' | .error _ => db
  | .deleteTodo todo_id =>
      match delete_todo db todo_id with | .ok db' => db' | .error _ => db
  | .createComment todo_id comment now =>
      match create_comment_for_task db todo_id comment now with
      | .ok (db', _) => db' | .error _ => db
  | .deleteComment comment_id =>
      match delete_comment db comment_id with | .ok db' => db' | .error _ => db
  | .uploadAttachment todo_id file uuid now =>
      match upload_attachment_for_task db todo_id file uuid now with
      | .ok (db', _) => db' | .error _ => db
  | .deleteAttachment attachment_id =>
      match delete_attachment db attachment_id with | .ok db' => db' | .error _ => db
  | .createLink todo_id attachment now =>
      match create_link_attachment_for_task db todo_id attachment now with
      | .ok (db', _) => db' | .error _ => db
  | .addWater data now => (add_water db data now).1
  | .removeWater water_log_id =>
      match remove_water db water_log_id with | .ok db' => db' | .error _ => db

/-- The store produced by a sequence of requests against an initial store. -/
def runOps (db : DB) (ops : List Op) : DB :=
  ops.foldl applyOp db

/-- The empty store the service starts from. -/
def emptyDB : DB := {}

/-- Exactly one of `file_path` and `url` is populated on an attachment row. -/
def attachmentXor (a : Attachment) : Prop :=
  (a.file_path ≠ none ∧ a.url = none) ∨ (a.url ≠ none ∧ a.file_path = none)

instance (a : Attachment) : Decidable (attachmentXor a) := by
  unfold attachmentXor
  exact inferInstance

theorem subset_collectStep (acc : List Nat) (t : Todo) : acc ⊆ collectStep acc t := by
  unfold collectStep
  cases t.parent_id with
  | none => exact fun x hx => hx
  | some p =>
      by_cases hp : p ∈ acc
      · simp only [if_pos hp]
        exact List.subset_append_left acc [t.id]
      · simp only [if_neg hp]
        exact fun x hx => hx

theorem subset_collectDesc (l : List Todo) (acc : List Nat) : acc ⊆ collectDesc l acc := by
  induction l generalizing acc with
  | nil => exact fun x hx => hx
  | cons t rest ih =>
      have heq : collectDesc (t :: rest) acc = collectDesc rest (collectStep acc t) := rfl
      rw [heq]
      exact (subset_collectStep acc t).trans (ih (collectStep acc t))

theorem mem_of_mem_collectDesc (l : List Todo) :
    ∀ acc x, x ∈ collectDesc l acc → x ∈ acc ∨ ∃ t ∈ l, t.id = x := by
  induction l with
  | nil => exact fun acc x h => Or.inl h
  | cons t rest ih =>
      intro acc x h
      have h' : x ∈ collectDesc rest (collectStep acc t) := h
      rcases ih (collectStep acc t) x h' with hs | ⟨u, hu, hux⟩
      · cases hpar : t.parent_id with
        | none =>
            simp only [collectStep, hpar] at hs
            exact Or.inl hs
        | some p =>
            simp only [collectStep, hpar] at hs
            by_cases hp : p ∈ acc
            · rw [if_pos hp] at hs
              rcases List.mem_append.mp hs with hsa | hst
              · exact Or.inl hsa
              · exact Or.inr ⟨t, List.mem_cons_self t rest, (List.mem_singleton.mp hst).symm⟩
            · rw [if_neg hp] at hs
              exact Or.inl hs
      · exact Or.inr ⟨u, List.mem_cons_of_mem t hu, hux⟩

theorem collectDesc_closed (l : List Todo) (c : Todo) (p : Nat)
    (hpar : c.parent_id = some p) (hlt : p < c.id) :
    ∀ acc, List.Pairwise (fun a b : Todo => a.id < b.id) l →
      c ∈ l → p ∈ collectDesc l acc → c.id ∈ collectDesc l acc := by
  induction l with
  | nil => intro acc _ hc; cases hc
  | cons t rest ih =>
      intro acc hsorted hc hmem
      have heq : collectDesc (t :: rest) acc = collectDesc rest (collectStep acc t) := rfl
      rw [heq] at hmem ⊢
      rcases List.pairwise_cons.mp hsorted with ⟨hhead, hrest⟩
      rcases List.mem_cons.mp hc with rfl | hc'
      · have hpacc : p ∈ acc := by
          rcases mem_of_mem_collectDesc rest (collectStep acc c) p hmem with hs | ⟨u, hu, hup⟩
          · simp only [collectStep, hpar] at hs
            by_cases hp : p ∈ acc
            · exact hp
            · rw [if_neg hp] at hs
              exact absurd hs hp
          · exfalso
            have h1 : c.id < u.id := hhead u hu
            rw [hup] at h1
            exact Nat.lt_asymm h1 hlt
        have hstep : collectStep acc c = acc ++ [c.id] := by
          simp only [collectStep, hpar, if_pos hpacc]
        rw [hstep] at hmem ⊢
        exact subset_collectDesc rest (acc ++ [c.id])
          (List.mem_append.mpr (Or.inr (List.mem_singleton.mpr rfl)))
      · exact ih (collectStep acc t) hrest hc' hmem

/-- Every descendant of `root` lands in the collected subtree when the table
is well-formed. -/
theorem desc_mem_subtreeIds {ts : List Todo} (hwf : WF ts) {root d : Nat}
    (h : Desc ts root d) : d ∈ subtreeIds ts root := by
  induction h with
  | refl =>
      exact subset_collectDesc ts [root] (List.mem_singleton.mpr rfl)
  | tail hbd hchild ih =>
      rcases hchild with ⟨t, ht, rfl, hpar⟩
      have hpe := hwf.2 t ht
      unfold parentEarlier at hpe
      rw [hpar] at hpe
      have hlt := of_decide_eq_true hpe
      exact collectDesc_closed ts t _ hpar hlt [root] hwf.1 ht ih

/-- Rows surviving `read_todos` are rows of the table. -/
theorem read_todos_subset (db : DB) (skip limit : Nat) (top_level_only : Bool) :
    ∀ x ∈ read_todos db skip limit top_level_only, x ∈ db.todos := by
  intro x hx
  unfold read_todos at hx
  have hx1 := List.mem_of_mem_take hx
  have hx2 := List.mem_of_mem_drop hx1
  have hx3 : x ∈ List.insertionSort (fun a b : Todo => a.id ≤ b.id) db.todos := by
    rcases Bool.eq_false_or_eq_true top_level_only with hb | hb
    · rw [hb] at hx2
      rw [if_pos rfl] at hx2
      exact List.mem_of_mem_filter hx2
    · rw [hb] at hx2
      rw [if_neg Bool.false_ne_true] at hx2
      exact hx2
  exact (List.perm_insertionSort (fun a b : Todo => a.id ≤ b.id) db.todos).mem_iff.mp hx3

/-- C1: deleting a task removes it, every descendant to any depth, and every
comment and attachment owned by the task or a descendant; afterwards none of
them is produced by `read_todo` or `read_todos`, and the owned rows are gone
from the store. -/
theorem delete_todo_cascades (db : DB) (todo_id : Nat) (hwf : WF db.todos)
    (hex : ∃ t ∈ db.todos, t.id = todo_id) :
    ∃ db', delete_todo db todo_id = .ok db' ∧
      ∀ d, Desc db.todos todo_id d →
        read_todo db' d = .error (.notFound "Task not found") ∧
        (∀ skip limit top_level_only,
          d ∉ (read_todos db' skip limit top_level_only).map (fun x => x.id)) ∧
        (∀ c ∈ db.comments, c.task_id = d → c ∉ db'.comments) ∧
        (∀ a ∈ db.attachments, a.task_id = d → a ∉ db'.attachments) := by
  obtain ⟨t, ht, hid⟩ := hex
  obtain ⟨t', hfind⟩ : ∃ t', db.todos.find? (fun x => x.id == todo_id) = some t' := by
    cases hf : db.todos.find? (fun x => x.id == todo_id) with
    | some u => exact ⟨u, rfl⟩
    | none =>
        exfalso
        have hnone := List.find?_eq_none.mp hf t ht
        simp [hid] at hnone
  have hdel : delete_todo db todo_id = .ok
      { db with
        todos := db.todos.filter (fun x => x.id ∉ subtreeIds db.todos todo_id)
        comments := db.comments.filter (fun c => c.task_id ∉ subtreeIds db.todos todo_id)
        attachments := db.attachments.filter
          (fun a => a.task_id ∉ subtreeIds db.todos todo_id) } := by
    unfold delete_todo get_task_or_404 subtreeIds
    rw [hfind]
    rfl
  refine ⟨_, hdel, ?_⟩
  intro d hdesc
  have hd : d ∈ subtreeIds db.todos todo_id := desc_mem_subtreeIds hwf hdesc
  refine ⟨?_, ?_, ?_, ?_⟩
  · unfold read_todo get_task_or_404
    have hnone : (db.todos.filter
        (fun x => x.id ∉ subtreeIds db.todos todo_id)).find?
          (fun x => x.id == d) = none := by
      rw [List.find?_eq_none]
      intro x hx
      have hxne := (List.mem_filter.mp hx).2
      simp only [decide_eq_true_eq] at hxne
      simp only [beq_iff_eq]
      intro hxd
      exact hxne (hxd ▸ hd)
    simp only [hnone]
    rfl
  · intro skip limit top_level_only hmem
    rcases List.mem_map.mp hmem with ⟨x, hx, hxd⟩
    have hx' := read_todos_subset _ skip limit top_level_only x hx
    have hxne := (List.mem_filter.mp hx').2
    simp only [decide_eq_true_eq] at hxne
    exact hxne (hxd ▸ hd)
  · intro c hc hcd hc'
    have hcne := (List.mem_filter.mp hc').2
    simp only [decide_eq_true_eq] at hcne
    exact hcne (hcd ▸ hd)
  · intro a ha had ha'
    have hane := (List.mem_filter.mp ha').2
    simp only [decide_eq_true_eq] at hane
    exact hane (had ▸ hd)

/-- Concrete three-level store: task 3 under task 2 under task 1, with a
comment on the grandchild and an attachment on the child. -/
def dbC1 : DB :=
  { todos :=
      [ { id := 1, title := "A" }
      , { id := 2, title := "B", parent_id := some 1 }
      , { id := 3, title := "C", parent_id := some 2 } ]
    comments := [ { id := 1, text := "note", created_at := 5, task_id := 3 } ]
    attachments :=
      [ { id := 1, url := some "https://docs.example", attachment_type := .LINK
        , created_at := 6, task_id := 2 } ]
    water_logs := []
    files := [] }

/-- Witness: the cascade-delete theorem applied to the concrete store at
root task 1. -/
theorem delete_todo_cascades_witness :
    ∃ db', delete_todo dbC1 1 = .ok db' ∧
      ∀ d, Desc dbC1.todos 1 d →
        read_todo db' d = .error (.notFound "Task not found") ∧
        (∀ skip limit top_level_only,
          d ∉ (read_todos db' skip limit top_level_only).map (fun x => x.id)) ∧
        (∀ c ∈ dbC1.comments, c.task_id = d → c ∉ db'.comments) ∧
        (∀ a ∈ dbC1.attachments, a.task_id = d → a ∉ db'.attachments) :=
  delete_todo_cascades dbC1 1 ⟨by decide, by decide⟩
    ⟨{ id := 1, title := "A" }, by decide, rfl⟩

theorem create_todo_ok_shape (db : DB) (todo : TodoCreate) (db' : DB) (r : Todo)
    (h : create_todo db todo = .ok (db', r)) :
    db' = { db with todos := db.todos ++ [r] } := by
  unfold create_todo get_task_or_404 at h
  split at h
  · split at h
    · simp only [bind, Except.bind, pure, Except.pure] at h
      cases h
      rfl
    · simp only [bind, Except.bind] at h
      cases h
  · simp only [bind, Except.bind, pure, Except.pure] at h
    cases h
    rfl

theorem update_todo_ok_shape (db : DB) (todo_id : Nat) (u : TodoUpdate) (db' : DB) (r : Todo)
    (h : update_todo db todo_id u = .ok (db', r)) :
    db' = { db with
            todos := db.todos.map (fun x => if x.id = todo_id then applyUpdate x u else x) } := by
  unfold update_todo get_task_or_404 at h
  split at h
  · simp only [bind, Except.bind, pure, Except.pure] at h
    cases h
    rfl
  · simp only [bind, Except.bind] at h
    cases h

theorem delete_todo_ok_shape (db : DB) (todo_id : Nat) (db' : DB)
    (h : delete_todo db todo_id = .ok db') :
    db' = { db with
            todos := db.todos.filter (fun t => t.id ∉ subtreeIds db.todos todo_id)
            comments := db.comments.filter (fun c => c.task_id ∉ subtreeIds db.todos todo_id)
            attachments := db.attachments.filter
              (fun a => a.task_id ∉ subtreeIds db.todos todo_id) } := by
  unfold delete_todo get_task_or_404 at h
  split at h
  · simp only [bind, Except.bind, pure, Except.pure] at h
    cases h
    rfl
  · simp only [bind, Except.bind] at h
    cases h

theorem create_comment_ok_shape (db : DB) (todo_id : Nat) (comment : CommentCreate)
    (now : Int) (db' : DB) (r : Comment)
    (h : create_comment_for_task db todo_id comment now = .ok (db', r)) :
    db' = { db with comments := db.comments ++ [r] } := by
  unfold create_comment_for_task get_task_or_404 at h
  split at h
  · simp only [bind, Except.bind, pure, Except.pure] at h
    cases h
    rfl
  · simp only [bind, Except.bind] at h
    cases h

theorem delete_comment_ok_shape (db : DB) (comment_id : Nat) (db' : DB)
    (h : delete_comment db comment_id = .ok db') :
    ∃ dc : Comment,
      db' = { db with comments := db.comments.filter (fun x => x.id ≠ dc.id) } := by
  unfold delete_comment get_comment_or_404 at h
  split at h
  · rename_i dc heq
    simp only [bind, Except.bind, pure, Except.pure] at h
    cases h
    exact ⟨dc, rfl⟩
  · simp only [bind, Except.bind] at h
    cases h

theorem upload_ok_shape (db : DB) (todo_id : Nat) (file : UploadFile) (uuid : String)
    (now : Int) (db' : DB) (r : Attachment)
    (h : upload_attachment_for_task db todo_id file uuid now = .ok (db', r)) :
    db' = { db with
            files := db.files ++ [UPLOAD_DIR ++ "/" ++ (uuid ++ file.extension)]
            attachments := db.attachments ++ [r] } ∧
      r.file_path = some (UPLOAD_DIR ++ "/" ++ (uuid ++ file.extension)) ∧ r.url = none := by
  unfold upload_attachment_for_task get_task_or_404 at h
  split at h
  · simp only [bind, Except.bind, pure, Except.pure] at h
    cases h
    exact ⟨rfl, rfl, rfl⟩
  · simp only [bind, Except.bind] at h
    cases h

theorem delete_attachment_ok_shape (db : DB) (attachment_id : Nat) (db' : DB)
    (h : delete_attachment db attachment_id = .ok db') :
    ∃ da, db.attachments.find? (fun a => a.id == attachment_id) = some da ∧
      db' = { db with
              files :=
                match da.file_path with
                | some p => if pathExists db.files p then db.files.filter (fun q => q ≠ p)
                            else db.files
                | none => db.files
              attachments := db.attachments.filter (fun x => x.id ≠ da.id) } := by
  unfold delete_attachment get_attachment_or_404 at h
  split at h
  · rename_i da heq
    simp only [bind, Except.bind, pure, Except.pure] at h
    cases h
    exact ⟨da, heq, rfl⟩
  · simp only [bind, Except.bind] at h
    cases h

theorem create_link_ok_shape (db : DB) (todo_id : Nat) (attachment : AttachmentCreate)
    (now : Int) (db' : DB) (r : Attachment)
    (h : create_link_attachment_for_task db todo_id attachment now = .ok (db', r)) :
    db' = { db with attachments := db.attachments ++ [r] } ∧
      r.url = attachment.url ∧ r.file_path = none ∧
      r.attachment_type = .LINK ∧ truthyStr attachment.url = true := by
  unfold create_link_attachment_for_task get_task_or_404 at h
  by_cases hc : (decide (attachment.attachment_type ≠ AttachmentType.LINK) ||
      !truthyStr attachment.url) = true
  · rw [if_pos hc] at h
    simp [throw, throwThe, MonadExceptOf.throw, bind, Except.bind] at h
  · rw [if_neg hc] at h
    have htr : truthyStr attachment.url = true := by
      simp only [Bool.or_eq_true, Bool.not_eq_true', not_or, Bool.not_eq_false] at hc
      exact hc.2
    split at h
    · simp only [bind, Except.bind, pure, Except.pure] at h
      cases h
      exact ⟨rfl, rfl, rfl, rfl, htr⟩
    · simp only [bind, Except.bind] at h
      cases h

theorem remove_water_ok_shape (db : DB) (water_log_id : Nat) (db' : DB)
    (h : remove_water db water_log_id = .ok db') :
    ∃ w : WaterLog,
      db' = { db with water_logs := db.water_logs.filter (fun x => x.id ≠ w.id) } := by
  unfold remove_water at h
  split at h
  · cases h
  · rename_i w heq
    cases h
    exact ⟨w, rfl⟩

theorem truthyStr_ne_none {o : Option String} (h : truthyStr o = true) : o ≠ none := by
  cases o with
  | none => simp [truthyStr] at h
  | some s => simp

theorem applyOp_attachmentXor (db : DB) (op : Op)
    (hinv : ∀ a ∈ db.attachments, attachmentXor a) :
    ∀ a ∈ (applyOp db op).attachments, attachmentXor a := by
  intro a ha
  cases op with
  | createTodo todo =>
      simp only [applyOp] at ha
      cases hr : create_todo db todo with
      | ok p =>
          obtain ⟨db', r⟩ := p
          rw [create_todo_ok_shape db todo db' r hr] at hr
          simp only [hr] at ha
          exact hinv a ha
      | error e =>
          simp only [hr] at ha
          exact hinv a ha
  | updateTodo todo_id u =>
      simp only [applyOp] at ha
      cases hr : update_todo db todo_id u with
      | ok p =>
          obtain ⟨db', r⟩ := p
          rw [update_todo_ok_shape db todo_id u db' r hr] at hr
          simp only [hr] at ha
          exact hinv a ha
      | error e =>
          simp only [hr] at ha
          exact hinv a ha
  | deleteTodo todo_id =>
      simp only [applyOp] at ha
      cases hr : delete_todo db todo_id with
      | ok db' =>
          rw [delete_todo_ok_shape db todo_id db' hr] at hr
          simp only [hr] at ha
          exact hinv a (List.mem_of_mem_filter ha)
      | error e =>
          simp only [hr] at ha
          exact hinv a ha
  | createComment todo_id comment now =>
      simp only [applyOp] at ha
      cases hr : create_comment_for_task db todo_id comment now with
      | ok p =>
          obtain ⟨db', r⟩ := p
          rw [create_comment_ok_shape db todo_id comment now db' r hr] at hr
          simp only [hr] at ha
          exact hinv a ha
      | error e =>
          simp only [hr] at ha
          exact hinv a ha
  | deleteComment comment_id =>
      simp only [applyOp] at ha
      cases hr : delete_comment db comment_id with
      | ok db' =>
          obtain ⟨dc, hsh⟩ := delete_comment_ok_shape db comment_id db' hr
          simp only [hr] at ha
          rw [hsh] at ha
          exact hinv a ha
      | error e =>
          simp only [hr] at ha
          exact hinv a ha
  | uploadAttachment todo_id file uuid now =>
      simp only [applyOp] at ha
      cases hr : upload_attachment_for_task db todo_id file uuid now with
      | ok p =>
          obtain ⟨db', r⟩ := p
          obtain ⟨hsh, hfp, hurl⟩ := upload_ok_shape db todo_id file uuid now db' r hr
          simp only [hr] at ha
          rw [hsh] at ha
          rcases List.mem_append.mp ha with hold | hnew
          · exact hinv a hold
          · rw [List.mem_singleton.mp hnew]
            exact Or.inl ⟨by simp [hfp], hurl⟩
      | error e =>
          simp only [hr] at ha
          exact hinv a ha
  | deleteAttachment attachment_id =>
      simp only [applyOp] at ha
      cases hr : delete_attachment db attachment_id with
      | ok db' =>
          obtain ⟨da, _, hsh⟩ := delete_attachment_ok_shape db attachment_id db' hr
          simp only [hr] at ha
          rw [hsh] at ha
          exact hinv a (List.mem_of_mem_filter ha)
      | error e =>
          simp only [hr] at ha
          exact hinv a ha
  | createLink todo_id attachment now =>
      simp only [applyOp] at ha
      cases hr : create_link_attachment_for_task db todo_id attachment now with
      | ok p =>
          obtain ⟨db', r⟩ := p
          obtain ⟨hsh, hurl, hfp, _, htr⟩ := create_link_ok_shape db todo_id attachment now db' r hr
          simp only [hr] at ha
          rw [hsh] at ha
          rcases List.mem_append.mp ha with hold | hnew
          · exact hinv a hold
          · rw [List.mem_singleton.mp hnew]
            exact Or.inr ⟨hurl ▸ truthyStr_ne_none htr, hfp⟩
      | error e =>
          simp only [hr] at ha
          exact hinv a ha
  | addWater data now =>
      exact hinv a ha
  | removeWater water_log_id =>
      simp only [applyOp] at ha
      cases hr : remove_water db water_log_id with
      | ok db' =>
          obtain ⟨w, hsh⟩ := remove_water_ok_shape db water_log_id db' hr
          simp only [hr] at ha
          rw [hsh] at ha
          exact hinv a ha
      | error e =>
          simp only [hr] at ha
          exact hinv a ha

theorem runOps_attachmentXor (ops : List Op) :
    ∀ db, (∀ a ∈ db.attachments, attachmentXor a) →
      ∀ a ∈ (runOps db ops).attachments, attachmentXor a := by
  induction ops with
  | nil => exact fun db hdb => hdb
  | cons op rest ih =>
      intro db hdb
      exact ih (applyOp db op) (applyOp_attachmentXor db op hdb)

/-- C3: every attachment reachable through any sequence of public requests
has exactly one of `file_path` and `url` populated; upload-created rows carry
`file_path` and a null `url`, link-created rows carry `url` and a null
`file_path`. -/
theorem attachment_xor_invariant :
    (∀ ops : List Op, ∀ a ∈ (runOps emptyDB ops).attachments, attachmentXor a) ∧
    (∀ (db : DB) (todo_id : Nat) (file : UploadFile) (uuid : String) (now : Int)
        (db' : DB) (r : Attachment),
      upload_attachment_for_task db todo_id file uuid now = .ok (db', r) →
      r.file_path ≠ none ∧ r.url = none) ∧
    (∀ (db : DB) (todo_id : Nat) (attachment : AttachmentCreate) (now : Int)
        (db' : DB) (r : Attachment),
      create_link_attachment_for_task db todo_id attachment now = .ok (db', r) →
      r.url ≠ none ∧ r.file_path = none) := by
  refine ⟨?_, ?_, ?_⟩
  · intro ops
    exact runOps_attachmentXor ops emptyDB (by intro a ha; cases ha)
  · intro db todo_id file uuid now db' r h
    obtain ⟨_, hfp, hurl⟩ := upload_ok_shape db todo_id file uuid now db' r h
    exact ⟨by simp [hfp], hurl⟩
  · intro db todo_id attachment now db' r h
    obtain ⟨_, hurl, hfp, _, htr⟩ := create_link_ok_shape db todo_id attachment now db' r h
    exact ⟨hurl ▸ truthyStr_ne_none htr, hfp⟩

/-- Witness: a concrete run — create a task, then attach a link — produces an
attachment satisfying the exclusive-or shape. -/
theorem attachment_xor_invariant_witness :
    attachmentXor
      { id := 1, file_path := none, url := some "https://docs.example"
      , attachment_type := .LINK, created_at := 7, task_id := 1 } :=
  attachment_xor_invariant.1
    [ .createTodo { title := "A" }
    , .createLink 1 { attachment_type := .LINK, url := some "https://docs.example" } 7 ]
    _ (by decide)

/-- C2 counterexample: on the empty store no task with id 0 exists, yet a
create request with `parent_id = 0` does not fail NotFound — the Python
truthiness test `if todo.parent_id:` skips the parent check for 0 and a row
with `parent_id = 0` is written. -/
theorem create_todo_parent_zero_counterexample :
    (create_todo emptyDB { title := "A", parent_id := some 0 }).map
      (fun r => (r.1.todos.map (fun t => (t.id, t.parent_id)), r.2.parent_id)) =
    .ok ([(1, some 0)], some 0) := by rfl

/-- C2 amended: a create request whose `parent_id` is a nonzero id of no
existing task fails NotFound (and, the transaction aborting, writes
nothing); but a request with `parent_id = 0` bypasses the existence check
entirely and succeeds, appending a row whose `parent_id` is 0. -/
theorem create_todo_parent_check (db : DB) (todo : TodoCreate) :
    (∀ p, todo.parent_id = some p → p ≠ 0 → (∀ t ∈ db.todos, t.id ≠ p) →
      create_todo db todo = .error (.notFound "Task not found")) ∧
    (todo.parent_id = some 0 →
      ∃ db_todo : Todo,
        create_todo db todo = .ok ({ db with todos := db.todos ++ [db_todo] }, db_todo) ∧
        db_todo.parent_id = some 0) := by
  constructor
  · intro p hp hp0 habs
    have htr : truthyNat todo.parent_id = true := by
      rw [hp]
      simp only [truthyNat, bne_iff_ne, ne_eq]
      exact hp0
    have hnone : db.todos.find? (fun t => t.id == todo.parent_id.getD 0) = none := by
      rw [List.find?_eq_none]
      intro t ht
      simp only [hp, Option.getD_some, beq_iff_eq]
      exact habs t ht
    unfold create_todo get_task_or_404
    rw [if_pos htr, hnone]
    rfl
  · intro h0
    refine ⟨{ id := next_todo_id db, title := todo.title, description := todo.description
            , status := todo.status.getD .TODO, due_date := todo.due_date
            , duration_minutes := todo.duration_minutes, completed_seconds := 0
            , hidden := todo.hidden.getD false, parent_id := todo.parent_id }, ?_, ?_⟩
    · have htr : truthyNat todo.parent_id = false := by
        rw [h0]
        simp [truthyNat]
      unfold create_todo
      rw [if_neg (by simp [htr])]
      rfl
    · simp [h0]

/-- Witness: a nonzero dangling parent id on the empty store is rejected
with NotFound. -/
theorem create_todo_parent_check_witness :
    create_todo emptyDB { title := "A", parent_id := some 5 } =
      .error (.notFound "Task not found") :=
  (create_todo_parent_check emptyDB { title := "A", parent_id := some 5 }).1 5 rfl
    (by decide) (by decide)

/-- C4: a partial update rewrites exactly the fields present in the request;
every field absent from the request keeps its stored value, the updated row
keeps its id and stays in the table, rows of other tasks survive untouched,
and the comment, attachment and water-log tables and the filesystem are left
as they were. -/
theorem update_todo_partial (db : DB) (todo_id : Nat) (u : TodoUpdate) (t : Todo)
    (hfind : db.todos.find? (fun x => x.id == todo_id) = some t) :
    ∃ db', update_todo db todo_id u = .ok (db', applyUpdate t u) ∧
      applyUpdate t u ∈ db'.todos ∧
      (applyUpdate t u).id = t.id ∧
      (u.title = none → (applyUpdate t u).title = t.title) ∧
      (u.description = none → (applyUpdate t u).description = t.description) ∧
      (u.status = none → (applyUpdate t u).status = t.status) ∧
      (u.due_date = none → (applyUpdate t u).due_date = t.due_date) ∧
      (u.duration_minutes = none →
        (applyUpdate t u).duration_minutes = t.duration_minutes) ∧
      (u.hidden = none → (applyUpdate t u).hidden = t.hidden) ∧
      (u.completed_seconds = none →
        (applyUpdate t u).completed_seconds = t.completed_seconds) ∧
      (∀ x ∈ db.todos, x.id ≠ todo_id → x ∈ db'.todos) ∧
      db'.comments = db.comments ∧ db'.attachments = db.attachments ∧
      db'.water_logs = db.water_logs ∧ db'.files = db.files := by
  have hok : update_todo db todo_id u = .ok
      ({ db with
          todos := db.todos.map (fun x => if x.id = todo_id then applyUpdate x u else x) },
        applyUpdate t u) := by
    unfold update_todo get_task_or_404
    rw [hfind]
    rfl
  have htid : t.id = todo_id := by
    have hp := List.find?_some hfind
    simpa using hp
  refine ⟨_, hok, ?_, rfl, ?_, ?_, ?_, ?_, ?_, ?_, ?_, ?_, rfl, rfl, rfl, rfl⟩
  · have ht : t ∈ db.todos := List.mem_of_find?_eq_some hfind
    have happ : (fun x => if x.id = todo_id then applyUpdate x u else x) t
        = applyUpdate t u := if_pos htid
    exact happ ▸ List.mem_map_of_mem _ ht
  · intro h
    simp [applyUpdate, h]
  · intro h
    simp [applyUpdate, h]
  · intro h
    simp [applyUpdate, h]
  · intro h
    simp [applyUpdate, h]
  · intro h
    simp [applyUpdate, h]
  · intro h
    simp [applyUpdate, h]
  · intro h
    simp [applyUpdate, h]
  · intro x hx hne
    have happ : (fun y => if y.id = todo_id then applyUpdate y u else y) x = x := if_neg hne
    exact happ ▸ List.mem_map_of_mem _ hx

/-- Concrete single-row store for exercising the partial update. -/
def taskC4 : Todo := { id := 1, title := "A", description := some "d", completed_seconds := 10 }

/-- Concrete partial update carrying only `status`. -/
def updC4 : TodoUpdate := { status := some .IN_PROGRESS }

/-- Store holding `taskC4` alone. -/
def dbC4 : DB := { todos := [taskC4] }

/-- Witness: the partial-update theorem applied to the concrete store. -/
theorem update_todo_partial_witness :
    ∃ db', update_todo dbC4 1 updC4 = .ok (db', applyUpdate taskC4 updC4) ∧
      applyUpdate taskC4 updC4 ∈ db'.todos ∧
      (applyUpdate taskC4 updC4).id = taskC4.id ∧
      (updC4.title = none → (applyUpdate taskC4 updC4).title = taskC4.title) ∧
      (updC4.description = none →
        (applyUpdate taskC4 updC4).description = taskC4.description) ∧
      (updC4.status = none → (applyUpdate taskC4 updC4).status = taskC4.status) ∧
      (updC4.due_date = none → (applyUpdate taskC4 updC4).due_date = taskC4.due_date) ∧
      (updC4.duration_minutes = none →
        (applyUpdate taskC4 updC4).duration_minutes = taskC4.duration_minutes) ∧
      (updC4.hidden = none → (applyUpdate taskC4 updC4).hidden = taskC4.hidden) ∧
      (updC4.completed_seconds = none →
        (applyUpdate taskC4 updC4).completed_seconds = taskC4.completed_seconds) ∧
      (∀ x ∈ dbC4.todos, x.id ≠ 1 → x ∈ db'.todos) ∧
      db'.comments = dbC4.comments ∧ db'.attachments = dbC4.attachments ∧
      db'.water_logs = dbC4.water_logs ∧ db'.files = dbC4.files :=
  update_todo_partial dbC4 1 updC4 taskC4 (by decide)

/-- C5 counterexample: `WaterCreate.amount_ml` carries no positivity
constraint, so requests with amount 0 and with a negative amount are
accepted and their rows persisted verbatim. -/
theorem add_water_zero_counterexample :
    ((add_water emptyDB { amount_ml := 0 } 100).1.water_logs.map
      (fun w => w.amount_ml)) = [0] ∧
    ((add_water emptyDB { amount_ml := -5 } 100).1.water_logs.map
      (fun w => w.amount_ml)) = [-5] := by decide

/-- C5 amended: every `addEntry` request is accepted and persists its
`amount_ml` exactly as sent — zero and negative amounts included; the
handler and the schema perform no positivity validation. -/
theorem add_water_persists_any_amount (db : DB) (data : WaterCreate) (now : Int) :
    (add_water db data now).1.water_logs =
      db.water_logs ++
        [{ id := next_water_id db, amount_ml := data.amount_ml, timestamp := now }] ∧
    (add_water db data now).2.amount_ml = data.amount_ml :=
  ⟨rfl, rfl⟩

theorem truthyStr_eq_false_iff (o : Option String) :
    truthyStr o = false ↔ o = none ∨ o = some "" := by
  cases o with
  | none => simp [truthyStr]
  | some s => simp [truthyStr]

theorem create_link_invalid (db : DB) (todo_id : Nat) (attachment : AttachmentCreate)
    (now : Int)
    (hc : (decide (attachment.attachment_type ≠ AttachmentType.LINK) ||
      !truthyStr attachment.url) = true) :
    create_link_attachment_for_task db todo_id attachment now =
      .error (.badRequest "Invalid request for link attachment.") := by
  unfold create_link_attachment_for_task
  rw [if_pos hc]
  rfl

theorem create_link_valid_found (db : DB) (todo_id : Nat) (attachment : AttachmentCreate)
    (now : Int) (task : Todo)
    (hc : ¬ ((decide (attachment.attachment_type ≠ AttachmentType.LINK) ||
      !truthyStr attachment.url) = true))
    (hfind : db.todos.find? (fun t => t.id == todo_id) = some task) :
    create_link_attachment_for_task db todo_id attachment now = .ok
      ({ db with attachments := db.attachments ++
          [{ id := next_attachment_id db, file_path := none, url := attachment.url
           , attachment_type := .LINK, created_at := now, task_id := task.id }] },
        { id := next_attachment_id db, file_path := none, url := attachment.url
        , attachment_type := .LINK, created_at := now, task_id := task.id }) := by
  unfold create_link_attachment_for_task get_task_or_404
  rw [if_neg hc, hfind]
  rfl

theorem create_link_valid_notfound (db : DB) (todo_id : Nat)
    (attachment : AttachmentCreate) (now : Int)
    (hc : ¬ ((decide (attachment.attachment_type ≠ AttachmentType.LINK) ||
      !truthyStr attachment.url) = true))
    (hfind : db.todos.find? (fun t => t.id == todo_id) = none) :
    create_link_attachment_for_task db todo_id attachment now =
      .error (.notFound "Task not found") := by
  unfold create_link_attachment_for_task get_task_or_404
  rw [if_neg hc, hfind]
  rfl

/-- C6: the link-attachment endpoint answers the 400 validation error exactly
when the body is invalid — `attachment_type` differs from `link`, or `url` is
absent or empty; an invalid request produces no new state (the transaction
yields only the error), and a valid body against an existing task appends
exactly one link row and writes no file. -/
theorem create_link_validation (db : DB) (todo_id : Nat)
    (attachment : AttachmentCreate) (now : Int) :
    (create_link_attachment_for_task db todo_id attachment now =
        .error (.badRequest "Invalid request for link attachment.") ↔
      (attachment.attachment_type ≠ .LINK ∨
        attachment.url = none ∨ attachment.url = some "")) ∧
    ((attachment.attachment_type = .LINK ∧ truthyStr attachment.url = true) →
      (∃ t ∈ db.todos, t.id = todo_id) →
      ∃ db' r, create_link_attachment_for_task db todo_id attachment now = .ok (db', r) ∧
        db'.attachments = db.attachments ++ [r] ∧
        r.url = attachment.url ∧ r.file_path = none ∧ r.attachment_type = .LINK ∧
        db'.files = db.files ∧ db'.todos = db.todos ∧ db'.comments = db.comments) := by
  have hcond_iff : ((decide (attachment.attachment_type ≠ AttachmentType.LINK) ||
      !truthyStr attachment.url) = true) ↔
      (attachment.attachment_type ≠ .LINK ∨
        attachment.url = none ∨ attachment.url = some "") := by
    rw [Bool.or_eq_true, decide_eq_true_eq, Bool.not_eq_true', truthyStr_eq_false_iff]
  by_cases hc : (decide (attachment.attachment_type ≠ AttachmentType.LINK) ||
      !truthyStr attachment.url) = true
  · refine ⟨⟨fun _ => hcond_iff.mp hc, fun _ => create_link_invalid db todo_id attachment now hc⟩, ?_⟩
    rintro ⟨hty, htr⟩ _
    exfalso
    rw [hty] at hc
    simp [htr] at hc
  · constructor
    · constructor
      · intro heq
        exfalso
        cases hfind : db.todos.find? (fun t => t.id == todo_id) with
        | some task =>
            rw [create_link_valid_found db todo_id attachment now task hc hfind] at heq
            cases heq
        | none =>
            rw [create_link_valid_notfound db todo_id attachment now hc hfind] at heq
            cases heq
      · intro hrhs
        exact absurd (hcond_iff.mpr hrhs) hc
    · rintro ⟨hty, htr⟩ ⟨t, ht, htid⟩
      obtain ⟨task, hfind⟩ : ∃ task, db.todos.find? (fun x => x.id == todo_id) = some task := by
        cases hf : db.todos.find? (fun x => x.id == todo_id) with
        | some u => exact ⟨u, rfl⟩
        | none =>
            exfalso
            have hnone := List.find?_eq_none.mp hf t ht
            simp [htid] at hnone
      exact ⟨_, _, create_link_valid_found db todo_id attachment now task hc hfind,
        rfl, rfl, rfl, rfl, rfl, rfl, rfl⟩

/-- Concrete one-task store. -/
def dbC6 : DB := { todos := [{ id := 1, title := "A" }] }

/-- Witness: a link body with no url against an existing task returns the
400. -/
theorem create_link_validation_witness :
    create_link_attachment_for_task dbC6 1
      { attachment_type := AttachmentType.LINK, url := none } 5 =
      .error (.badRequest "Invalid request for link attachment.") :=
  (create_link_validation dbC6 1 { attachment_type := .LINK, url := none } 5).1.mpr
    (Or.inr (Or.inl rfl))

/-- C10: validation runs before the task lookup, so an invalid link body is
answered with the 400 even when the path's task id matches no task, never
with the 404, and no state is produced. -/
theorem create_link_validation_before_lookup (db : DB) (todo_id : Nat)
    (attachment : AttachmentCreate) (now : Int)
    (hinvalid : attachment.attachment_type ≠ .LINK ∨ truthyStr attachment.url = false)
    (habsent : ∀ t ∈ db.todos, t.id ≠ todo_id) :
    create_link_attachment_for_task db todo_id attachment now =
      .error (.badRequest "Invalid request for link attachment.") ∧
    create_link_attachment_for_task db todo_id attachment now ≠
      .error (.notFound "Task not found") := by
  have hc : (decide (attachment.attachment_type ≠ AttachmentType.LINK) ||
      !truthyStr attachment.url) = true := by
    rw [Bool.or_eq_true, decide_eq_true_eq, Bool.not_eq_true']
    exact hinvalid
  have heq := create_link_invalid db todo_id attachment now hc
  refine ⟨heq, ?_⟩
  rw [heq]
  intro hbad
  cases hbad

/-- Witness: an image-typed body on the empty store (task 1 absent) still
gets the 400, not the 404. -/
theorem create_link_validation_before_lookup_witness :
    create_link_attachment_for_task emptyDB 1
      { attachment_type := AttachmentType.IMAGE, url := some "https://docs.example" } 5 =
      .error (.badRequest "Invalid request for link attachment.") ∧
    create_link_attachment_for_task emptyDB 1
      { attachment_type := AttachmentType.IMAGE, url := some "https://docs.example" } 5 ≠
      .error (.notFound "Task not found") :=
  create_link_validation_before_lookup emptyDB 1
    { attachment_type := .IMAGE, url := some "https://docs.example" } 5
    (Or.inl (by decide)) (by decide)

/-- C7: deleting an attachment fails NotFound when the id is unknown; when
the row exists its stored file is removed exactly when `file_path` is set to
an existing storage path, a missing file is tolerated silently, and the row
itself is deleted in every successful case regardless of the file's
presence. -/
theorem delete_attachment_spec (db : DB) (attachment_id : Nat) :
    ((∀ a ∈ db.attachments, a.id ≠ attachment_id) →
      delete_attachment db attachment_id = .error (.notFound "Attachment not found")) ∧
    (∀ a, db.attachments.find? (fun x => x.id == attachment_id) = some a →
      ∃ db', delete_attachment db attachment_id = .ok db' ∧
        db'.attachments = db.attachments.filter (fun x => x.id ≠ a.id) ∧
        a ∉ db'.attachments ∧
        (∀ p, a.file_path = some p → pathExists db.files p = true →
          db'.files = db.files.filter (fun q => q ≠ p)) ∧
        (∀ p, a.file_path = some p → pathExists db.files p = false →
          db'.files = db.files) ∧
        (a.file_path = none → db'.files = db.files)) := by
  constructor
  · intro habs
    have hnone : db.attachments.find? (fun x => x.id == attachment_id) = none := by
      rw [List.find?_eq_none]
      intro a ha
      simp only [beq_iff_eq]
      exact habs a ha
    unfold delete_attachment get_attachment_or_404
    rw [hnone]
    rfl
  · intro a hfind
    have hok : delete_attachment db attachment_id = .ok
        { db with
          files :=
            match a.file_path with
            | some p => if pathExists db.files p then db.files.filter (fun q => q ≠ p)
                        else db.files
            | none => db.files
          attachments := db.attachments.filter (fun x => x.id ≠ a.id) } := by
      unfold delete_attachment get_attachment_or_404
      rw [hfind]
      rfl
    refine ⟨_, hok, rfl, ?_, ?_, ?_, ?_⟩
    · intro hmem
      have hpred := (List.mem_filter.mp hmem).2
      simp at hpred
    · intro p hp hex
      simp only [hp, hex, if_true]
    · intro p hp hex
      simp only [hp, hex]
      rw [if_neg]
      simp [hex]
    · intro hp
      simp only [hp]

/-- Concrete store: one uploaded attachment whose file is present in the
upload directory. -/
def dbC7 : DB :=
  { todos := [{ id := 1, title := "A" }]
    attachments :=
      [ { id := 1, file_path := some "static/uploads/u.png", url := none
        , attachment_type := .IMAGE, created_at := 3, task_id := 1 } ]
    files := ["static/uploads/u.png"] }

/-- Witness: the delete-attachment theorem applied to the concrete store. -/
theorem delete_attachment_spec_witness :
    ∃ db', delete_attachment dbC7 1 = .ok db' ∧
      db'.attachments = dbC7.attachments.filter (fun x => x.id ≠ 1) ∧
      ({ id := 1, file_path := some "static/uploads/u.png", url := none
       , attachment_type := .IMAGE, created_at := 3, task_id := 1 } : Attachment)
        ∉ db'.attachments ∧
      (∀ p, (some "static/uploads/u.png" : Option String) = some p →
        pathExists dbC7.files p = true →
        db'.files = dbC7.files.filter (fun q => q ≠ p)) ∧
      (∀ p, (some "static/uploads/u.png" : Option String) = some p →
        pathExists dbC7.files p = false → db'.files = dbC7.files) ∧
      ((some "static/uploads/u.png" : Option String) = none → db'.files = dbC7.files) :=
  (delete_attachment_spec dbC7 1).2
    { id := 1, file_path := some "static/uploads/u.png", url := none
    , attachment_type := .IMAGE, created_at := 3, task_id := 1 } (by decide)

/-- C8: the entries returned by `today_stats` are exactly the entries of
`history` whose timestamp lies in the half-open window from the fixed
timezone's midnight to the following midnight, and the returned total is the
sum of `amount_ml` over exactly the returned entries. -/
theorem today_stats_matches_history (db : DB) (start_of_day : Int) :
    (∀ l : WaterLog, l ∈ (today_stats db start_of_day).2 ↔
      (l ∈ history db ∧ start_of_day ≤ l.timestamp ∧
        l.timestamp < start_of_day + oneDay)) ∧
    (today_stats db start_of_day).1 =
      ((today_stats db start_of_day).2.map (fun l => l.amount_ml)).sum := by
  constructor
  · intro l
    unfold today_stats history
    simp only [List.mem_filter, Bool.and_eq_true, decide_eq_true_eq]
    constructor
    · rintro ⟨hm, h1, h2⟩
      exact ⟨(List.perm_insertionSort (fun a b : WaterLog => b.timestamp ≤ a.timestamp)
        db.water_logs).mem_iff.mpr hm, h1, h2⟩
    · rintro ⟨hh, h1, h2⟩
      exact ⟨(List.perm_insertionSort (fun a b : WaterLog => b.timestamp ≤ a.timestamp)
        db.water_logs).mem_iff.mp hh, h1, h2⟩
  · rfl

/-- Concrete chain store: task 3 under task 2 under task 1. -/
def dbC9 : DB :=
  { todos :=
      [ { id := 1, title := "A" }
      , { id := 2, title := "B", parent_id := some 1 }
      , { id := 3, title := "C", parent_id := some 2 } ] }

/-- C9 counterexample: reading the grandparent populates
`subtasks[].subtasks` — the node of subtask 2 inside the response for task 1
itself contains subtask 3, so the second level of nesting IS populated,
contradicting the claim that only one level is. -/
theorem read_todo_nested_counterexample :
    (read_todo dbC9 1).map
      (fun r => r.subtasks.map (fun s => (s.id, s.subtasks.map TodoOut.id))) =
    .ok [(2, [3])] := by rfl

theorem serializeTodoFuel_id (n : Nat) (db : DB) (t : Todo) :
    (serializeTodoFuel n db t).id = t.id := by
  cases n <;> rfl

theorem find?_id_eq_of_sorted (ts : List Todo)
    (hw : List.Pairwise (fun a b : Todo => a.id < b.id) ts)
    (t : Todo) (ht : t ∈ ts) : ts.find? (fun x => x.id == t.id) = some t := by
  induction ts with
  | nil => cases ht
  | cons u rest ih =>
      rcases List.pairwise_cons.mp hw with ⟨hhead, hrest⟩
      rcases List.mem_cons.mp ht with rfl | ht'
      · rw [List.find?_cons_of_pos]
        simp
      · have hne : u.id ≠ t.id := Nat.ne_of_lt (hhead t ht')
        rw [List.find?_cons_of_neg]
        · exact ih hrest ht'
        · simp [hne]

/-- C9 amended: `read_todo` populates subtask nesting recursively at every
level, not one level only: on any well-formed store, when `c` is a child of
`t` and `g` a child of `c`, the response for `t` contains the node of `c`,
and that node's own `subtasks` already contains `g`. -/
theorem read_todo_nests_recursively (db : DB) (hwf : WF db.todos)
    (t c g : Todo) (ht : t ∈ db.todos) (hc : c ∈ db.todos) (hg : g ∈ db.todos)
    (hcp : c.parent_id = some t.id) (hgp : g.parent_id = some c.id) :
    ∃ r, read_todo db t.id = .ok r ∧
      ∃ s ∈ r.subtasks, s.id = c.id ∧ g.id ∈ s.subtasks.map TodoOut.id := by
  have hpc := hwf.2 c hc
  unfold parentEarlier at hpc
  rw [hcp] at hpc
  have htc : t.id < c.id := of_decide_eq_true hpc
  have hne : t ≠ c := by
    intro h
    rw [h] at htc
    exact Nat.lt_irrefl c.id htc
  have hsub : [t, c] ⊆ db.todos := by
    intro x hx
    rcases List.mem_cons.mp hx with rfl | hx'
    · exact ht
    · rw [List.mem_singleton.mp hx']
      exact hc
  have hnd : List.Nodup [t, c] := by simp [hne]
  have hlen : 2 ≤ db.todos.length := hnd.subperm hsub |>.length_le
  obtain ⟨k, hk⟩ := Nat.exists_eq_add_of_le hlen
  have hk' : db.todos.length = (k + 1) + 1 := by omega
  refine ⟨serializeTodo db t, ?_, ?_⟩
  · unfold read_todo get_task_or_404
    rw [find?_id_eq_of_sorted db.todos hwf.1 t ht]
    rfl
  · have hcmem : c ∈ childrenOf db.todos t.id := by
      rw [childrenOf, List.mem_filter]
      exact ⟨hc, by simp [hcp]⟩
    have hgmem : g ∈ childrenOf db.todos c.id := by
      rw [childrenOf, List.mem_filter]
      exact ⟨hg, by simp [hgp]⟩
    refine ⟨serializeTodoFuel (k + 1) db c, ?_, serializeTodoFuel_id (k + 1) db c, ?_⟩
    · show serializeTodoFuel (k + 1) db c ∈ (serializeTodo db t).subtasks
      unfold serializeTodo
      rw [hk']
      simp only [serializeTodoFuel, TodoOut.subtasks]
      exact List.mem_map_of_mem (serializeTodoFuel (k + 1) db) hcmem
    · simp only [serializeTodoFuel, TodoOut.subtasks, List.map_map]
      exact List.mem_map.mpr ⟨g, hgmem, serializeTodoFuel_id k db g⟩

/-- Witness: the recursive-nesting theorem applied to the concrete chain
store. -/
theorem read_todo_nests_recursively_witness :
    ∃ r, read_todo dbC9 1 = .ok r ∧
      ∃ s ∈ r.subtasks, s.id = 2 ∧ (3 : Nat) ∈ s.subtasks.map TodoOut.id :=
  read_todo_nests_recursively dbC9 ⟨by decide, by decide⟩
    { id := 1, title := "A" }
    { id := 2, title := "B", parent_id := some 1 }
    { id := 3, title := "C", parent_id := some 2 }
    (by decide) (by decide) (by decide) rfl rfl

end LifeCoach

